import Mathlib

/-!
Verification development for the rs-tiled map deserializer.

The Rust sources under src/ (tileset.rs, tile.rs, image.rs, objects.rs,
animation.rs and the test suite) are embedded shallowly below: machine
integers become Nat with explicit bounds or wrapping where overflow matters,
fallible code returns Except, the XML event reader becomes an explicit list
of events, and the file system becomes an explicit state record.

Modules of the crate that are not present under src/ (error.rs, util.rs with
the get_attrs! and parse_tag! macros, properties.rs, and the layer-content
decoder of layers.rs/map.rs) are modelled from the specification document;
each such definition carries a doc comment starting with
"Modelled from the spec:".
-/

set_option maxRecDepth 4096

/-! ## Basic character and number parsing helpers -/

/-- True for an ASCII decimal digit character. -/
def isDigitCh (c : Char) : Bool := 48 ≤ c.toNat && c.toNat ≤ 57

/-- True for the ASCII whitespace characters recognized while trimming.
Rust trims Unicode whitespace; only the ASCII subset is modelled. -/
def isWSCh (c : Char) : Bool :=
  c.toNat = 32 || c.toNat = 10 || c.toNat = 9 || c.toNat = 13

/-- Numeric value of a list of decimal digit characters, most significant first. -/
def digitsVal (cs : List Char) : Nat :=
  cs.foldl (fun a c => 10 * a + (c.toNat - 48)) 0

/-- Parse a list of characters as an unsigned decimal number.
Fails on an empty list or any non-digit character. -/
def parseNatChars (cs : List Char) : Option Nat :=
  if cs ≠ [] ∧ cs.all isDigitCh then some (digitsVal cs) else none

/-- Embeds str::parse::<u32>: an optional leading plus sign followed by decimal
digits, rejecting values that do not fit in 32 bits. -/
def parseU32Chars (cs : List Char) : Option Nat :=
  let cs2 := match cs with
    | c :: r => if c = '+' then r else cs
    | [] => cs
  match parseNatChars cs2 with
  | some n => if n < 4294967296 then some n else none
  | none => none

/-- Embeds str::parse::<u32> on a string. -/
def parseU32 (s : String) : Option Nat := parseU32Chars s.data

/-- Embeds str::parse::<i32>: an optional sign followed by decimal digits,
rejecting values outside the 32-bit signed range. -/
def parseI32 (s : String) : Option Int :=
  let cs := s.data
  match cs with
  | c :: r =>
    if c = '-' then
      match parseNatChars r with
      | some n => if n ≤ 2147483648 then some (-(n : Int)) else none
      | none => none
    else
      let cs2 := if c = '+' then r else cs
      match parseNatChars cs2 with
      | some n => if n ≤ 2147483647 then some (n : Int) else none
      | none => none
  | [] => none

/-- Rational stand-in for Rust f32 fields. Floating-point rounding is not
modelled (it is not statable in this embedding); none of the verified claims
depend on f32 values, only on their presence in the data model. -/
abbrev F32 := Rat

/-- Embeds str::parse::<f32> on the plain decimal forms (optional sign,
digits, optional fractional part). Exponent, infinity and NaN forms are not
modelled; no verified claim depends on them. -/
def parseF32 (s : String) : Option F32 :=
  let core : List Char → Option F32 := fun cs =>
    match cs.span isDigitCh with
    | (intPart, rest) =>
      match rest with
      | [] =>
        match parseNatChars intPart with
        | some n => some (n : F32)
        | none => none
      | c :: frac =>
        if c = '.' then
          match parseNatChars intPart, parseNatChars frac with
          | some n, some f => some ((n : F32) + (f : F32) / ((10 : F32) ^ frac.length))
          | _, _ => none
        else none
  match s.data with
  | c :: r =>
    if c = '-' then (core r).map (fun q => -q)
    else if c = '+' then core r
    else core s.data
  | [] => none

/-- Hex digit value, if any. -/
def hexVal (c : Char) : Option Nat :=
  if 48 ≤ c.toNat ∧ c.toNat ≤ 57 then some (c.toNat - 48)
  else if 97 ≤ c.toNat ∧ c.toNat ≤ 102 then some (c.toNat - 87)
  else if 65 ≤ c.toNat ∧ c.toNat ≤ 70 then some (c.toNat - 55)
  else none

/-! ## Data model: Gid, Color, Properties -/

/-- Embeds tile.rs Gid: a Tiled global tile ID, a 32-bit value.
Gid 0 is the empty tile. The u32 payload (field .0 in Rust) is the field val. -/
structure Gid where
  val : Nat
deriving DecidableEq, Repr

/-- Embeds Gid::EMPTY. -/
def Gid.EMPTY : Gid := ⟨0⟩

/-- Modelled from the spec: the color type of properties.rs (not under src/).
A color is a red/green/blue byte triple parsed from hex notation. -/
structure Color where
  red : Nat
  green : Nat
  blue : Nat
deriving DecidableEq, Repr

/-- Modelled from the spec: Color's FromStr (properties.rs is not under src/):
an optional leading hash sign followed by six hex digits. -/
def parseColor (s : String) : Option Color :=
  let cs := match s.data with
    | c :: r => if c = '#' then r else s.data
    | [] => s.data
  match cs.mapM hexVal with
  | some [r1, r2, g1, g2, b1, b2] =>
    some ⟨16 * r1 + r2, 16 * g1 + g2, 16 * b1 + b2⟩
  | _ => none

/-- Modelled from the spec: the property value kinds of the custom-property
key/value map (properties.rs is not under src/). -/
inductive PropertyValue where
  | BoolValue (b : Bool)
  | FloatValue (f : F32)
  | IntValue (i : Int)
  | ColorValue (c : Nat)
  | StringValue (s : String)
deriving DecidableEq, Repr

/-- Modelled from the spec: the custom-property key/value map, as an
association list from property name to value (a hash map in the source). -/
abbrev Properties := List (String × PropertyValue)

/-- Modelled from the spec: Properties::default() is the empty map. -/
def Properties.default : Properties := []

/-! ## XML events, errors, and the parse-result type -/

/-- Embeds xml::attribute::OwnedAttribute, keeping the local name and value. -/
structure OwnedAttribute where
  name : String
  value : String
deriving DecidableEq, Repr

/-- Embeds the xml::reader::XmlEvent stream elements consumed by the parsers.
The readError constructor stands for the reader returning Err from next();
otherEvent covers the event kinds every parser skips. -/
inductive XmlEvent where
  | startElement (name : String) (attributes : List OwnedAttribute)
  | endElement (name : String)
  | characters (s : String)
  | endDocument
  | otherEvent
  | readError (e : String)
deriving DecidableEq, Repr

/-- Modelled from the spec and the constructors used under src/: error.rs is
not under src/. MalformedAttributes, XmlDecodingError, PrematureEnd and Other
appear at use sites in tileset.rs, tile.rs, image.rs and objects.rs and in
the test suite; ContentDecodingError, IoError and InvalidFormat are the
spec's error kinds for the code outside src/ and are included so that claims
about them are statable. -/
inductive TiledError where
  | MalformedAttributes (s : String)
  | XmlDecodingError (s : String)
  | PrematureEnd (s : String)
  | Other (s : String)
  | ContentDecodingError (stage : String)
  | IoError (cause : String)
  | InvalidFormat (s : String)
deriving DecidableEq, Repr

/-- Result channel of the embedded parsers. The outOfFuel outcome is an
artifact of bounding the parse loops by explicit fuel; it never corresponds
to a behavior of the source and is kept distinct from every TiledError. -/
inductive ParseErr where
  | tiled (e : TiledError)
  | outOfFuel
deriving DecidableEq, Repr

/-! ## Attribute contract (util.rs get_attrs!, modelled from the spec) -/

/-- Modelled from the spec: one pass over the attribute list; for each
attribute whose name matches the declared target the coercion function is
applied to its raw text value, a later duplicate overwriting an earlier one.
The result is the final coercion result, or none if the name never matched
or its last coercion failed. util.rs is not under src/. -/
def getAttr (attrs : List OwnedAttribute) (n : String) (coerce : String → Option α) :
    Option α :=
  (attrs.foldl (fun acc a => if a.name = n then some a.value else acc) none).bind coerce

/-- Modelled from the spec: a required attribute that never matched, or whose
coercion failed, fails immediately with a malformed-attributes error carrying
the offending attribute name and the caller-supplied message. The call sites
under src/ supply the message as a prebuilt TiledError, so the attribute name
is prepended to its message text. -/
def attachAttrName (n : String) : TiledError → TiledError
  | .MalformedAttributes m => .MalformedAttributes (n ++ (": ") ++ m)
  | e => e

/-- Modelled from the spec: resolution of one required attribute. -/
def requireAttr (attrs : List OwnedAttribute) (n : String) (coerce : String → Option α)
    (err : TiledError) : Except ParseErr α :=
  match getAttr attrs n coerce with
  | some v => .ok v
  | none => .error (.tiled (attachAttrName n err))

example : parseU32 ("123") = some 123 := by decide
example : parseU32 ("+7") = some 7 := by decide
example : parseU32 ("4294967296") = none := by decide
example : parseU32 ("") = none := by decide
example : parseI32 ("-12") = some (-12) := by decide
example : parseColor ("#10ff00") = some ⟨16, 255, 0⟩ := by decide
example : getAttr [⟨("a"), ("1")⟩, ⟨("b"), ("2")⟩] ("b") parseU32 = some 2 := by decide

/-! ## Structural dispatcher (util.rs parse_tag!, modelled from the spec) -/

/-- Modelled from the spec: skipping the entire subtree of an unrecognized
child element, counting nesting depth, until the close element matching the
already-consumed open element is passed. Fails on end of document or a
reader error. util.rs is not under src/. -/
def skipSubtree : Nat → List XmlEvent → Except ParseErr (List XmlEvent)
  | _, [] => .error (.tiled (.PrematureEnd ("Document ended before we expected.")))
  | depth, ev :: rest =>
    match ev with
    | .startElement _ _ => skipSubtree (depth + 1) rest
    | .endElement _ => if depth = 1 then .ok rest else skipSubtree (depth - 1) rest
    | .endDocument => .error (.tiled (.PrematureEnd ("Document ended before we expected.")))
    | .readError e => .error (.tiled (.XmlDecodingError e))
    | _ => skipSubtree depth rest

/-- A child-tag handler: receives the child's attribute list, the state built
so far and the events after the child's open element, and returns the new
state and the events after the child's subtree. -/
abbrev Handler (σ : Type) :=
  List OwnedAttribute → σ → List XmlEvent → Except ParseErr (σ × List XmlEvent)

/-- First handler declared for a given tag name, as in the if-chain the
dispatch expands to. -/
def lookupHandler (handlers : List (String × Handler σ)) (n : String) :
    Option (Handler σ) :=
  match handlers with
  | [] => none
  | (tag, h) :: rest => if tag = n then some h else lookupHandler rest n

/-- Modelled from the spec: the structural dispatcher (util.rs parse_tag!,
not under src/). With the open element's name already consumed, decode
events are read until the matching close element of the current element:
each recognized child open-element is routed to its handler (which may
recursively consume that child's subtree), each unrecognized child's entire
subtree is skipped without error, end of document before the matching close
fails with a premature-end error, and a reader failure is surfaced as an
XML decoding error. The loop is bounded by explicit fuel; an exhausted
stream keeps yielding end-of-document, modelled by the empty event list. -/
def parse_tag (fuel : Nat) (close : String) (handlers : List (String × Handler σ))
    (s : σ) (evs : List XmlEvent) : Except ParseErr (σ × List XmlEvent) :=
  match fuel with
  | 0 => .error .outOfFuel
  | fuel + 1 =>
    match evs with
    | [] => .error (.tiled (.PrematureEnd ("Document ended before we expected.")))
    | ev :: rest =>
      match ev with
      | .startElement name attrs =>
        match lookupHandler handlers name with
        | some h =>
          match h attrs s rest with
          | .ok (s2, rest2) => parse_tag fuel close handlers s2 rest2
          | .error e => .error e
        | none =>
          match skipSubtree 1 rest with
          | .ok rest2 => parse_tag fuel close handlers s rest2
          | .error e => .error e
      | .endElement name =>
        if name = close then .ok (s, rest) else parse_tag fuel close handlers s rest
      | .endDocument => .error (.tiled (.PrematureEnd ("Document ended before we expected.")))
      | .readError e => .error (.tiled (.XmlDecodingError e))
      | _ => parse_tag fuel close handlers s rest

/-! ## Leaf element parsers -/

/-- Embeds image.rs Image. -/
structure Image where
  source : String
  width : Int
  height : Int
  transparent_color : Option Color
deriving DecidableEq, Repr

/-- Embeds image.rs Image::new: the attribute contract with optional trans
and required source, width and height, then a dispatcher pass over the image
element with a single never-matching handler for the empty tag name. -/
def Image.new (fuel : Nat) (attrs : List OwnedAttribute) (evs : List XmlEvent) :
    Except ParseErr (Image × List XmlEvent) := do
  let c := getAttr attrs ("trans") parseColor
  let imgErr := TiledError.MalformedAttributes
    ("image must have a source, width and height with correct types")
  let s ← requireAttr attrs ("source") some imgErr
  let w ← requireAttr attrs ("width") parseI32 imgErr
  let h ← requireAttr attrs ("height") parseI32 imgErr
  let (_, rest) ← parse_tag fuel ("image")
    [(("" : String), (fun _ s evs => .ok (s, evs) : Handler Unit))] () evs
  return (⟨s, w, h, c⟩, rest)

/-- Modelled from the spec: the handler for one property child element,
collecting its name, optional type (defaulting to string) and value. -/
def propertyHandler : Handler Properties := fun attrs s evs => do
  let propErr := TiledError.MalformedAttributes
    ("property must have a name and value")
  let n ← requireAttr attrs ("name") some propErr
  let v ← requireAttr attrs ("value") some propErr
  let ty := (getAttr attrs ("type") some).getD ("string")
  let pv : PropertyValue ←
    if ty = ("bool") then Except.ok (.BoolValue (v = ("true")))
    else if ty = ("float") then
      match parseF32 v with
      | some f => Except.ok (.FloatValue f)
      | none => Except.error (.tiled propErr)
    else if ty = ("int") then
      match parseI32 v with
      | some i => Except.ok (.IntValue i)
      | none => Except.error (.tiled propErr)
    else Except.ok (.StringValue v)
  Except.ok (s ++ [(n, pv)], evs)

/-- Modelled from the spec: Properties::parse_xml (properties.rs is not under
src/): a dispatcher pass over the properties element collecting each property
child into the map. -/
def Properties.parse_xml (fuel : Nat) (evs : List XmlEvent) :
    Except ParseErr (Properties × List XmlEvent) :=
  parse_tag fuel ("properties") [(("property"), propertyHandler)]
    Properties.default evs

/-- Embeds animation.rs Frame. Duration is kept in milliseconds. -/
structure Frame where
  tile_id : Nat
  duration : Nat
deriving DecidableEq, Repr

/-- Embeds animation.rs Frame::new: required tileid and duration. -/
def Frame.new (attrs : List OwnedAttribute) : Except ParseErr Frame := do
  let frameErr := TiledError.MalformedAttributes ("A frame must have tileid and duration")
  let tile_id ← requireAttr attrs ("tileid") parseU32 frameErr
  let duration ← requireAttr attrs ("duration") parseU32 frameErr
  return ⟨tile_id, duration⟩

/-- Embeds animation.rs Animation. -/
structure Animation where
  frames : List Frame
deriving DecidableEq, Repr

/-- Embeds animation.rs Animation::parse_xml: a dispatcher pass over the
animation element accumulating frame children. -/
def Animation.parse_xml (fuel : Nat) (evs : List XmlEvent) :
    Except ParseErr (Animation × List XmlEvent) := do
  let frameHandler : Handler (List Frame) := fun attrs s evs => do
    let f ← Frame.new attrs
    Except.ok (s ++ [f], evs)
  let (frames, rest) ← parse_tag fuel ("animation")
    [(("frame"), frameHandler)] [] evs
  return (⟨frames⟩, rest)

/-! ## Objects (objects.rs) -/

/-- Embeds objects.rs ObjectShape. -/
inductive ObjectShape where
  | Rect (width : F32) (height : F32)
  | Ellipse (width : F32) (height : F32)
  | Polyline (points : List (F32 × F32))
  | Polygon (points : List (F32 × F32))
  | Point (x : F32) (y : F32)
deriving DecidableEq, Repr

/-- Embeds objects.rs Object. -/
structure Object where
  id : Nat
  gid : Gid
  name : String
  obj_type : String
  width : F32
  height : F32
  x : F32
  y : F32
  rotation : F32
  visible : Bool
  shape : ObjectShape
  properties : Properties
deriving DecidableEq, Repr

/-- Splits a character list at every occurrence of the separator, as Rust
str::split does (n separators yield n + 1 pieces, empty pieces included). -/
def splitChAux (sep : Char) : List Char → List Char → List (List Char)
  | [], acc => [acc.reverse]
  | c :: rest, acc =>
    if c = sep then acc.reverse :: splitChAux sep rest []
    else splitChAux sep rest (c :: acc)

/-- Rust str::split on a single separator character. -/
def splitCh (sep : Char) (cs : List Char) : List (List Char) := splitChAux sep cs []

/-- Embeds objects.rs Object::parse_points: space-separated pairs of
comma-separated coordinates. -/
def Object.parse_points (s : String) : Except ParseErr (List (F32 × F32)) :=
  let pairs := splitCh ' ' s.data
  pairs.mapM (fun p =>
    let v := splitCh ',' p
    match v with
    | [xs, ys] =>
      match parseF32 (String.mk xs), parseF32 (String.mk ys) with
      | some x, some y => Except.ok (x, y)
      | _, _ => Except.error (.tiled (.MalformedAttributes
          ("one of polyline's points does not have i32eger coordinates")))
    | _ => Except.error (.tiled (.MalformedAttributes
        ("one of a polyline's points does not have an x and y coordinate"))))

/-- Embeds objects.rs Object::new_polyline. -/
def Object.new_polyline (attrs : List OwnedAttribute) : Except ParseErr ObjectShape := do
  let s ← requireAttr attrs ("points") some
    (.MalformedAttributes ("A polyline must have points"))
  let points ← Object.parse_points s
  return .Polyline points

/-- Embeds objects.rs Object::new_polygon. -/
def Object.new_polygon (attrs : List OwnedAttribute) : Except ParseErr ObjectShape := do
  let s ← requireAttr attrs ("points") some
    (.MalformedAttributes ("A polygon must have points"))
  let points ← Object.parse_points s
  return .Polygon points

/-- Embeds objects.rs Object::new_point. -/
def Object.new_point (x y : F32) : Except ParseErr ObjectShape :=
  Except.ok (.Point x y)

/-- State built by the object element's child handlers. -/
structure ObjectAcc where
  shape : Option ObjectShape
  properties : Properties
deriving DecidableEq, Repr

/-- Embeds objects.rs Object::new: the attribute contract (required x and y,
the rest optional with defaults), then a dispatcher pass over the object
element for its shape child and properties. -/
def Object.new (fuel : Nat) (attrs : List OwnedAttribute) (evs : List XmlEvent) :
    Except ParseErr (Object × List XmlEvent) := do
  let objErr := TiledError.MalformedAttributes ("objects must have an x and a y number")
  let id := getAttr attrs ("id") parseU32
  let gid := getAttr attrs ("gid") (fun v => (parseU32 v).map Gid.mk)
  let n := getAttr attrs ("name") some
  let t := getAttr attrs ("type") some
  let w := getAttr attrs ("width") parseF32
  let h := getAttr attrs ("height") parseF32
  let vis := getAttr attrs ("visible") (fun v => (parseI32 v).map (fun x => x == 1))
  let r := getAttr attrs ("rotation") parseF32
  let x ← requireAttr attrs ("x") parseF32 objErr
  let y ← requireAttr attrs ("y") parseF32 objErr
  let v := vis.getD true
  let w := w.getD 0
  let h := h.getD 0
  let r := r.getD 0
  let id := id.getD 0
  let gid := gid.getD Gid.EMPTY
  let n := n.getD ("")
  let t := t.getD ("")
  let handlers : List (String × Handler ObjectAcc) :=
    [ (("ellipse"), fun _ s evs =>
        Except.ok ({ s with shape := some (.Ellipse w h) }, evs)),
      (("polyline"), fun attrs s evs => do
        let sh ← Object.new_polyline attrs
        Except.ok ({ s with shape := some sh }, evs)),
      (("polygon"), fun attrs s evs => do
        let sh ← Object.new_polygon attrs
        Except.ok ({ s with shape := some sh }, evs)),
      (("point"), fun _ s evs => do
        let sh ← Object.new_point x y
        Except.ok ({ s with shape := some sh }, evs)),
      (("properties"), fun _ s evs => do
        let (props, evs2) ← Properties.parse_xml fuel evs
        Except.ok ({ s with properties := props }, evs2)) ]
  let (acc, rest) ← parse_tag fuel ("object") handlers ⟨none, Properties.default⟩ evs
  let shape := acc.shape.getD (.Rect w h)
  return (⟨id, gid, n, t, w, h, x, y, r, v, shape, acc.properties⟩, rest)

/-- Embeds objects.rs ObjectGroup. -/
structure ObjectGroup where
  name : String
  opacity : F32
  visible : Bool
  objects : List Object
  color : Option Color
  layer_index : Option Nat
  properties : Properties
deriving DecidableEq, Repr

/-- State built by the objectgroup element's child handlers. -/
structure ObjectGroupAcc where
  objects : List Object
  properties : Properties
deriving DecidableEq, Repr

/-- Embeds objects.rs ObjectGroup::new: all attributes optional, then a
dispatcher pass over the objectgroup element for objects and properties. -/
def ObjectGroup.new (fuel : Nat) (attrs : List OwnedAttribute)
    (layer_index : Option Nat) (evs : List XmlEvent) :
    Except ParseErr (ObjectGroup × List XmlEvent) := do
  let o := getAttr attrs ("opacity") parseF32
  let v := getAttr attrs ("visible") (fun v => (parseI32 v).map (fun x => x == 1))
  let c := getAttr attrs ("color") parseColor
  let n := getAttr attrs ("name") some
  let handlers : List (String × Handler ObjectGroupAcc) :=
    [ (("object"), fun attrs s evs => do
        let (obj, evs2) ← Object.new fuel attrs evs
        Except.ok ({ s with objects := s.objects ++ [obj] }, evs2)),
      (("properties"), fun _ s evs => do
        let (props, evs2) ← Properties.parse_xml fuel evs
        Except.ok ({ s with properties := props }, evs2)) ]
  let (acc, rest) ← parse_tag fuel ("objectgroup") handlers ⟨[], Properties.default⟩ evs
  return (⟨n.getD (""), o.getD 1, v.getD true, acc.objects, c, layer_index,
    acc.properties⟩, rest)

/-! ## Tiles (tile.rs) -/

/-- Embeds tile.rs Tile. -/
structure Tile where
  id : Nat
  images : List Image
  properties : Properties
  objectgroup : Option ObjectGroup
  animation : Option Animation
  tile_type : Option String
  probability : F32
deriving DecidableEq, Repr

/-- State built by the tile element's child handlers. -/
structure TileAcc where
  images : List Image
  properties : Properties
  objectgroup : Option ObjectGroup
  animation : Option Animation
deriving DecidableEq, Repr

/-- Embeds tile.rs Tile::new: optional type and probability, required id,
then a dispatcher pass over the tile element for image, properties,
objectgroup and animation children. -/
def Tile.new (fuel : Nat) (attrs : List OwnedAttribute) (evs : List XmlEvent) :
    Except ParseErr (Tile × List XmlEvent) := do
  let tile_type := getAttr attrs ("type") some
  let probability := getAttr attrs ("probability") parseF32
  let id ← requireAttr attrs ("id") parseU32
    (.MalformedAttributes ("tile must have an id with the correct type"))
  let handlers : List (String × Handler TileAcc) :=
    [ (("image"), fun attrs s evs => do
        let (img, evs2) ← Image.new fuel attrs evs
        Except.ok ({ s with images := s.images ++ [img] }, evs2)),
      (("properties"), fun _ s evs => do
        let (props, evs2) ← Properties.parse_xml fuel evs
        Except.ok ({ s with properties := props }, evs2)),
      (("objectgroup"), fun attrs s evs => do
        let (og, evs2) ← ObjectGroup.new fuel attrs none evs
        Except.ok ({ s with objectgroup := some og }, evs2)),
      (("animation"), fun _ s evs => do
        let (anim, evs2) ← Animation.parse_xml fuel evs
        Except.ok ({ s with animation := some anim }, evs2)) ]
  let (acc, rest) ← parse_tag fuel ("tile") handlers
    ⟨[], Properties.default, none, none⟩ evs
  return (⟨id, acc.images, acc.properties, acc.objectgroup, acc.animation,
    tile_type, probability.getD 1⟩, rest)

/-! ## Tileset (tileset.rs) -/

/-- Embeds tileset.rs Tileset. Paths are modelled as strings. -/
structure Tileset where
  first_gid : Gid
  name : String
  tile_width : Nat
  tile_height : Nat
  spacing : Nat
  margin : Nat
  tilecount : Nat
  images : List Image
  tiles : List Tile
  properties : Properties
  source : Option String
deriving DecidableEq, Repr

/-- Embeds tileset.rs Tileset::contains_tile. The u32 sum first_gid.0 +
tilecount is taken modulo 2^32: with overflow checks off, Rust u32 addition
wraps (with them on, the overflowing input panics instead; in neither case
is the exact sum computed). -/
def Tileset.contains_tile (t : Tileset) (gid : Gid) : Bool :=
  decide (t.first_gid.val ≤ gid.val) &&
    decide (gid.val < (t.first_gid.val + t.tilecount) % 4294967296)

/-- The file system as explicit state: the contents a path opens to (as the
XML events the reader would yield; none means File::open fails), and the
record of every File::open call performed, in order. -/
structure FsState where
  files : String → Option (List XmlEvent)
  opens : List String

/-- One File::open call: looks up the path and records the open. -/
def fsOpen (p : String) (st : FsState) : Option (List XmlEvent) × FsState :=
  (st.files p, { st with opens := st.opens ++ [p] })

/-- Embeds std Path::with_file_name on string paths: every trailing component
after the last slash is replaced by the given file name. -/
def with_file_name (p : String) (name : String) : String :=
  let parts := splitCh '/' p.data
  match parts.dropLast with
  | [] => name
  | dir => String.mk ((dir.map String.mk).foldr (fun a b => a ++ ("/") ++ b) ("")).data ++ name

/-- State built by the tileset element's child handlers. -/
structure TilesetAcc where
  images : List Image
  tiles : List Tile
  properties : Properties
deriving DecidableEq, Repr

/-- The caller-supplied required-attribute error of every tileset attribute
contract in tileset.rs (one prebuilt value for the whole element). -/
def tilesetAttrsErr : TiledError :=
  .MalformedAttributes
    ("tileset must have a firstgid, name tile width and height with correct types")

/-- Embeds tileset.rs Tileset::parse_xml_embedded: optional spacing and
margin, required tilecount, firstgid, name, tilewidth and tileheight, then a
dispatcher pass over the tileset element for image, properties and tile
children; the source is the enclosing map's path. -/
def Tileset.parse_xml_embedded (fuel : Nat) (attrs : List OwnedAttribute)
    (map_path : Option String) (evs : List XmlEvent) :
    Except ParseErr (Tileset × List XmlEvent) := do
  let spacing := getAttr attrs ("spacing") parseU32
  let margin := getAttr attrs ("margin") parseU32
  let tilecount ← requireAttr attrs ("tilecount") parseU32 tilesetAttrsErr
  let first_gid ← requireAttr attrs ("firstgid")
    (fun v => (parseU32 v).map Gid.mk) tilesetAttrsErr
  let name ← requireAttr attrs ("name") some tilesetAttrsErr
  let width ← requireAttr attrs ("tilewidth") parseU32 tilesetAttrsErr
  let height ← requireAttr attrs ("tileheight") parseU32 tilesetAttrsErr
  let handlers : List (String × Handler TilesetAcc) :=
    [ (("image"), fun attrs s evs => do
        let (img, evs2) ← Image.new fuel attrs evs
        Except.ok ({ s with images := s.images ++ [img] }, evs2)),
      (("properties"), fun _ s evs => do
        let (props, evs2) ← Properties.parse_xml fuel evs
        Except.ok ({ s with properties := props }, evs2)),
      (("tile"), fun attrs s evs => do
        let (tile, evs2) ← Tile.new fuel attrs evs
        Except.ok ({ s with tiles := s.tiles ++ [tile] }, evs2)) ]
  let (acc, rest) ← parse_tag fuel ("tileset") handlers
    ⟨[], [], Properties.default⟩ evs
  return (⟨first_gid, name, width, height, spacing.getD 0, margin.getD 0,
    tilecount, acc.images, acc.tiles, acc.properties, map_path⟩, rest)

/-- Embeds tileset.rs Tileset::parse_external_tileset: like the embedded
parse but with no firstgid attribute (the caller supplies it) and with the
tile handler declared before the properties handler. -/
def Tileset.parse_external_tileset (fuel : Nat) (first_gid : Gid)
    (attrs : List OwnedAttribute) (source : Option String) (evs : List XmlEvent) :
    Except ParseErr Tileset := do
  let spacing := getAttr attrs ("spacing") parseU32
  let margin := getAttr attrs ("margin") parseU32
  let tilecount ← requireAttr attrs ("tilecount") parseU32 tilesetAttrsErr
  let name ← requireAttr attrs ("name") some tilesetAttrsErr
  let width ← requireAttr attrs ("tilewidth") parseU32 tilesetAttrsErr
  let height ← requireAttr attrs ("tileheight") parseU32 tilesetAttrsErr
  let handlers : List (String × Handler TilesetAcc) :=
    [ (("image"), fun attrs s evs => do
        let (img, evs2) ← Image.new fuel attrs evs
        Except.ok ({ s with images := s.images ++ [img] }, evs2)),
      (("tile"), fun attrs s evs => do
        let (tile, evs2) ← Tile.new fuel attrs evs
        Except.ok ({ s with tiles := s.tiles ++ [tile] }, evs2)),
      (("properties"), fun _ s evs => do
        let (props, evs2) ← Properties.parse_xml fuel evs
        Except.ok ({ s with properties := props }, evs2)) ]
  let (acc, _) ← parse_tag fuel ("tileset") handlers
    ⟨[], [], Properties.default⟩ evs
  return ⟨first_gid, name, width, height, spacing.getD 0, margin.getD 0,
    tilecount, acc.images, acc.tiles, acc.properties, source⟩

/-- Embeds tileset.rs Tileset::new_external: reads events until the tileset
open element is found and hands over to parse_external_tileset; a reader
failure surfaces as an XML decoding error, and end of document first (the
exhausted stream included) fails with a premature-end error. -/
def Tileset.new_external (fuel : Nat) (evs : List XmlEvent) (first_gid : Gid)
    (source : Option String) : Except ParseErr Tileset :=
  match evs with
  | [] => .error (.tiled (.PrematureEnd ("Tileset Document ended before map was parsed")))
  | ev :: rest =>
    match ev with
    | .startElement name attributes =>
      if name = ("tileset") then
        Tileset.parse_external_tileset fuel first_gid attributes source rest
      else Tileset.new_external fuel rest first_gid source
    | .endDocument =>
      .error (.tiled (.PrematureEnd ("Tileset Document ended before map was parsed")))
    | .readError e => .error (.tiled (.XmlDecodingError e))
    | _ => Tileset.new_external fuel rest first_gid source

/-- Embeds tileset.rs Tileset::parse_reader. -/
def Tileset.parse_reader (fuel : Nat) (evs : List XmlEvent) (first_gid : Gid)
    (path : Option String) : Except ParseErr Tileset :=
  Tileset.new_external fuel evs first_gid path

/-- Embeds tileset.rs Tileset::parse_xml_reference: required firstgid and
source; with no map path the parse fails before any file access with the
location-required error; otherwise the referenced path is resolved with
with_file_name, opened (a failed open becomes the file-not-found error,
dropping the underlying cause), and fully parsed with new_external. -/
def Tileset.parse_xml_reference (fuel : Nat) (attrs : List OwnedAttribute)
    (map_path : Option String) (st : FsState) :
    Except ParseErr Tileset × FsState :=
  match requireAttr attrs ("firstgid") (fun v => (parseU32 v).map Gid.mk)
      tilesetAttrsErr with
  | .error e => (.error e, st)
  | .ok first_gid =>
    match requireAttr attrs ("source") some tilesetAttrsErr with
    | .error e => (.error e, st)
    | .ok source =>
      match map_path with
      | none =>
        (.error (.tiled (.Other
          ("Maps with external tilesets must know their file location.  See parse_with_path(Path)."))),
         st)
      | some mp =>
        let tileset_path := with_file_name mp source
        match fsOpen tileset_path st with
        | (none, st2) =>
          (.error (.tiled (.Other
            (("External tileset file not found: \"") ++ tileset_path ++ ("\"")))), st2)
        | (some file_evs, st2) =>
          (Tileset.new_external fuel file_evs first_gid (some tileset_path), st2)

/-- Embeds tileset.rs Tileset::parse_xml: the embedded parse is attempted
first and any failure of it falls back to parsing the same attribute list as
an external reference (or_else), discarding the embedded error. -/
def Tileset.parse_xml (fuel : Nat) (attrs : List OwnedAttribute)
    (map_path : Option String) (evs : List XmlEvent) (st : FsState) :
    Except ParseErr Tileset × FsState :=
  match Tileset.parse_xml_embedded fuel attrs map_path evs with
  | .ok (t, _) => (.ok t, st)
  | .error _ => Tileset.parse_xml_reference fuel attrs map_path st

/-- Models Rust std slice::binary_search_by_key through its documented
contract: on a slice sorted by the key it returns the index of an element
with the sought key if one is present and an Err otherwise. The returned
index is modelled as the first matching one; the source's sortedness
assumption makes any matching index carry the same key. -/
def binary_search_by_key (k : Nat) : List Tile → Option Nat
  | [] => none
  | t :: rest =>
    if t.id = k then some 0 else (binary_search_by_key k rest).map (· + 1)

/-- Embeds tileset.rs Tileset::get_tile_by_gid. Panics are modelled as error
outcomes: the u32 subtraction gid.0 - first_gid.0 underflows when the gid is
below first_gid (a panic under overflow checks), and the not-found branch of
the search is todo!, which panics unconditionally. -/
def Tileset.get_tile_by_gid (t : Tileset) (gid : Gid) :
    Except String (Option Tile) :=
  if gid.val < t.first_gid.val then .error ("attempt to subtract with overflow")
  else
    let id := gid.val - t.first_gid.val
    match binary_search_by_key id t.tiles with
    | some index =>
      match t.tiles.get? index with
      | some tile => .ok (some tile)
      | none => .error ("index out of bounds")
    | none => .error ("not yet implemented")

/-! ## Layer content decoder (layers.rs and map.rs are not under src/;
modelled from the spec) -/

/-- Modelled from the spec: one grid position's content, a Gid plus the three
orientation flags recovered from the three highest bits of the raw stored
32-bit value (the cell type; the test suite names it LayerTile). -/
structure LayerTile where
  gid : Gid
  flip_h : Bool
  flip_v : Bool
  flip_d : Bool
deriving DecidableEq, Repr

/-- Modelled from the spec: the raw 32-bit value is split by masking off the
top three bits (flip-diagonal, flip-vertical, flip-horizontal, in that bit
order from the most significant bit) and treating the remaining 29 bits as
the Gid. -/
def cellOfRaw (v : Nat) : LayerTile :=
  { gid := ⟨v % 536870912⟩
    flip_d := decide (v / 2147483648 % 2 = 1)
    flip_v := decide (v / 1073741824 % 2 = 1)
    flip_h := decide (v / 536870912 % 2 = 1) }

/-- Re-packing a cell: the Gid bits together with the flag bits shifted back
to the top three positions (gid with flags shifted in; the fields are bitwise
disjoint, so the bitwise or is written as addition). -/
def packCell (c : LayerTile) : Nat :=
  c.gid.val + (cond c.flip_d 1 0) * 2147483648 + (cond c.flip_v 1 0) * 1073741824 +
    (cond c.flip_h 1 0) * 536870912

/-- Strips leading and trailing whitespace, as str::trim does (ASCII subset). -/
def trimChars (cs : List Char) : List Char :=
  ((cs.dropWhile isWSCh).reverse.dropWhile isWSCh).reverse

/-- Decodes a list of CSV tokens: each token, tolerated to carry surrounding
whitespace, must be a decimal unsigned 32-bit value. -/
def decodeTokens : List (List Char) → Except TiledError (List Nat)
  | [] => .ok []
  | tok :: rest =>
    match parseU32Chars (trimChars tok) with
    | some n => (decodeTokens rest).map (fun ns => n :: ns)
    | none => .error (.ContentDecodingError ("csv"))

/-- Modelled from the spec: the CSV layer body is a comma-separated list of
decimal unsigned 32-bit values, each token tolerated to carry surrounding
whitespace; a malformed token fails with a content decoding error naming the
stage. -/
def decodeCSV (s : String) : Except TiledError (List Nat) :=
  decodeTokens (splitCh ',' s.data)

/-- Base64 character of a sextet, over the standard alphabet. -/
def sextetChar (s : Nat) : Char :=
  if s < 26 then Char.ofNat (65 + s)
  else if s < 52 then Char.ofNat (71 + s)
  else if s < 62 then Char.ofNat (s - 4)
  else if s = 62 then '+'
  else '/'

/-- Sextet of a base64 character, if it belongs to the standard alphabet. -/
def charSextet (c : Char) : Option Nat :=
  if 65 ≤ c.toNat ∧ c.toNat ≤ 90 then some (c.toNat - 65)
  else if 97 ≤ c.toNat ∧ c.toNat ≤ 122 then some (c.toNat - 71)
  else if 48 ≤ c.toNat ∧ c.toNat ≤ 57 then some (c.toNat + 4)
  else if c = '+' then some 62
  else if c = '/' then some 63
  else none

/-- Byte triples to sextet quadruples, with the shorter final group encoding
a one- or two-byte tail. -/
def encodeSextets : List Nat → List Nat
  | b0 :: b1 :: b2 :: rest =>
    b0 / 4 :: ((b0 % 4) * 16 + b1 / 16) :: ((b1 % 16) * 4 + b2 / 64) :: b2 % 64 ::
      encodeSextets rest
  | [b0, b1] => [b0 / 4, (b0 % 4) * 16 + b1 / 16, (b1 % 16) * 4]
  | [b0] => [b0 / 4, (b0 % 4) * 16]
  | [] => []

/-- Sextet quadruples back to byte triples; a final group of one sextet is
malformed. -/
def decodeSextets : List Nat → Option (List Nat)
  | s0 :: s1 :: s2 :: s3 :: rest =>
    (decodeSextets rest).map
      (fun bs => (s0 * 4 + s1 / 16) :: ((s1 % 16) * 16 + s2 / 4) :: ((s2 % 4) * 64 + s3) :: bs)
  | [s0, s1, s2] => some [s0 * 4 + s1 / 16, (s1 % 16) * 16 + s2 / 4]
  | [s0, s1] => some [s0 * 4 + s1 / 16]
  | [_] => none
  | [] => some []

/-- Number of padding characters closing a base64 encoding. -/
def b64PadCount (n : Nat) : Nat := if n % 3 = 0 then 0 else 3 - n % 3

/-- Base64 encoding of a byte list over the standard alphabet, with padding. -/
def b64Encode (bytes : List Nat) : String :=
  String.mk ((encodeSextets bytes).map sextetChar ++
    List.replicate (b64PadCount bytes.length) '=')

/-- Maps base64 characters to their sextets, failing on any character
outside the standard alphabet. -/
def sextetsOf : List Char → Option (List Nat)
  | [] => some []
  | c :: rest =>
    match charSextet c, sextetsOf rest with
    | some s, some ss => some (s :: ss)
    | _, _ => none

/-- Modelled from the spec: base64 decoding of a layer body; trailing padding
is dropped, every remaining character must belong to the standard alphabet,
and the sextets are reassembled into bytes. -/
def b64Decode (cs : List Char) : Option (List Nat) :=
  let noPad := (cs.reverse.dropWhile (fun c => c = '=')).reverse
  (sextetsOf noPad).bind decodeSextets

/-- Little-endian serialization of 32-bit values, four bytes per value. -/
def bytesLE : List Nat → List Nat
  | [] => []
  | v :: rest =>
    v % 256 :: (v / 256 % 256) :: (v / 65536 % 256) :: (v / 16777216 % 256) :: bytesLE rest

/-- Modelled from the spec: a flat byte buffer reinterpreted as little-endian
32-bit values, four bytes per cell; a trailing group of fewer than four bytes
fails with a content decoding error. -/
def bytesToU32s : List Nat → Except TiledError (List Nat)
  | [] => .ok []
  | b0 :: b1 :: b2 :: b3 :: rest =>
    (bytesToU32s rest).map (fun vs => (b0 + b1 * 256 + b2 * 65536 + b3 * 16777216) :: vs)
  | _ => .error (.ContentDecodingError ("bytes"))

/-- Modelled from the spec: the encoding and compression declared by a layer
or chunk. The five supported combinations are plain child elements, csv,
base64 with no compression, base64 with zlib, and base64 with gzip. -/
inductive LayerEncoding where
  | plain
  | csv
  | base64raw
  | base64zlib
  | base64gzip
deriving DecidableEq, Repr

/-- Modelled from the spec: the serialized body of one layer or chunk:
either the raw values declared one per child element (the plain encoding),
or a text body. -/
inductive LayerBody where
  | elems (gids : List String)
  | text (body : String)
deriving DecidableEq, Repr

/-- Decodes the plain encoding's child-element values: each child element
declares one raw 32-bit value directly. -/
def decodeGids : List String → Except TiledError (List Nat)
  | [] => .ok []
  | g :: rest =>
    match parseU32 g with
    | some n => (decodeGids rest).map (fun ns => n :: ns)
    | none => .error (.ContentDecodingError ("gid"))

/-- Modelled from the spec: decoding the serialized body of a tile layer to
the flat row-major list of raw 32-bit values. Decompression is the external
collaborator interface: two fallible byte-stream transforms supplied by the
caller (zlib inflate and gzip decompress). -/
def decodeLayerRaws (zlib gzip : List Nat → Option (List Nat))
    (enc : LayerEncoding) (body : LayerBody) : Except TiledError (List Nat) :=
  match enc, body with
  | .plain, .elems gids => decodeGids gids
  | .csv, .text s => decodeCSV s
  | .base64raw, .text s =>
    match b64Decode (trimChars s.data) with
    | some bytes => bytesToU32s bytes
    | none => .error (.ContentDecodingError ("base64"))
  | .base64zlib, .text s =>
    match b64Decode (trimChars s.data) with
    | some bytes =>
      match zlib bytes with
      | some inflated => bytesToU32s inflated
      | none => .error (.ContentDecodingError ("zlib"))
    | none => .error (.ContentDecodingError ("base64"))
  | .base64gzip, .text s =>
    match b64Decode (trimChars s.data) with
    | some bytes =>
      match gzip bytes with
      | some inflated => bytesToU32s inflated
      | none => .error (.ContentDecodingError ("gzip"))
    | none => .error (.ContentDecodingError ("base64"))
  | _, _ => .error (.InvalidFormat ("encoding and body do not match"))

/-- Splits a flat cell list into h rows of w cells, row-major. -/
def gridRows (h w : Nat) (cells : List LayerTile) : List (List LayerTile) :=
  match h with
  | 0 => []
  | h + 1 => cells.take w :: gridRows h w (cells.drop w)

/-- Modelled from the spec: the full layer-content decode of one finite layer
or chunk: decode the raw values, split each into a cell, and check the total
count against the declared width and height before exposing the grid. -/
def decodeLayerCells (zlib gzip : List Nat → Option (List Nat))
    (enc : LayerEncoding) (w h : Nat) (body : LayerBody) :
    Except TiledError (List (List LayerTile)) :=
  match decodeLayerRaws zlib gzip enc body with
  | .error e => .error e
  | .ok raws =>
    if raws.length = w * h then .ok (gridRows h w (raws.map cellOfRaw))
    else .error (.InvalidFormat ("decoded cell count does not match the declared dimensions"))

/-- Decimal digit character of a value below ten. -/
def digitCh (d : Nat) : Char := Char.ofNat (48 + d)

/-- Decimal digits of a number, most significant first, by fueled division. -/
def natToDecAux : Nat → Nat → List Char
  | 0, _ => []
  | f + 1, n =>
    if n < 10 then [digitCh n] else natToDecAux f (n / 10) ++ [digitCh (n % 10)]

/-- Decimal representation of a number. -/
def natToDec (n : Nat) : List Char := natToDecAux (n + 1) n

/-- Canonical CSV encoding of a raw value list: decimal tokens joined by
commas. -/
def csvEncode : List Nat → List Char
  | [] => []
  | [v] => natToDec v
  | v :: rest => natToDec v ++ ',' :: csvEncode rest

/-! ## Token-level lemmas for the content decoder -/

theorem isDigitCh_toNat {c : Char} (h : isDigitCh c = true) :
    48 ≤ c.toNat ∧ c.toNat ≤ 57 := by
  simpa [isDigitCh, Bool.and_eq_true, decide_eq_true_iff] using h

theorem isWSCh_of_digit {c : Char} (h : isDigitCh c = true) : isWSCh c = false := by
  obtain ⟨h1, h2⟩ := isDigitCh_toNat h
  simp only [isWSCh, Bool.or_eq_false_iff, decide_eq_false_iff_not]
  omega

theorem ne_comma_of_digit {c : Char} (h : isDigitCh c = true) : c ≠ ',' := by
  intro hc; subst hc; exact absurd h (by decide)

theorem ne_plus_of_digit {c : Char} (h : isDigitCh c = true) : c ≠ '+' := by
  intro hc; subst hc; exact absurd h (by decide)

theorem digitCh_isDigit : ∀ d, d < 10 → isDigitCh (digitCh d) = true := by decide

theorem digitCh_toNat : ∀ d, d < 10 → (digitCh d).toNat = 48 + d := by decide

theorem natToDecAux_all_digits :
    ∀ f n, n < 10 ^ f → (natToDecAux f n).all isDigitCh = true := by
  intro f
  induction f with
  | zero => intro n hn; interval_cases n; rfl
  | succ f ih =>
    intro n hn
    rw [natToDecAux]
    by_cases h : n < 10
    · simp only [if_pos h, List.all_cons, List.all_nil, Bool.and_true]
      exact digitCh_isDigit n h
    · have hd : n / 10 < 10 ^ f := by
        have : n < 10 ^ f * 10 := by rw [← pow_succ]; exact hn
        omega
      simp only [if_neg h, List.all_append, List.all_cons, List.all_nil, Bool.and_true]
      rw [Bool.and_eq_true]
      exact ⟨ih _ hd, digitCh_isDigit _ (Nat.mod_lt _ (by omega))⟩

theorem natToDecAux_ne_nil : ∀ f n, 0 < f → natToDecAux f n ≠ [] := by
  intro f n hf
  match f, hf with
  | f + 1, _ =>
    rw [natToDecAux]
    by_cases h : n < 10
    · simp [h]
    · simp [h]

theorem natToDecAux_foldl :
    ∀ f n a, n < 10 ^ f →
      (natToDecAux f n).foldl (fun a c => 10 * a + (c.toNat - 48)) a =
        a * 10 ^ (natToDecAux f n).length + n := by
  intro f
  induction f with
  | zero =>
    intro n a hn; interval_cases n; simp [natToDecAux]
  | succ f ih =>
    intro n a hn
    rw [natToDecAux]
    by_cases h : n < 10
    · simp only [if_pos h, List.foldl_cons, List.foldl_nil, List.length_cons,
        List.length_nil, digitCh_toNat n h]
      ring_nf
      omega
    · have hd : n / 10 < 10 ^ f := by
        have : n < 10 ^ f * 10 := by rw [← pow_succ]; exact hn
        omega
      simp only [if_neg h, List.foldl_append, List.foldl_cons, List.foldl_nil,
        List.length_append, List.length_cons, List.length_nil,
        digitCh_toNat _ (Nat.mod_lt n (by omega) : n % 10 < 10)]
      rw [ih _ a hd]
      rw [pow_succ]
      ring_nf
      omega

theorem lt_ten_pow_succ (n : Nat) : n < 10 ^ (n + 1) := by
  induction n with
  | zero => decide
  | succ n ih =>
    have : 10 ^ (n + 1) ≤ 10 ^ (n + 2) := Nat.pow_le_pow_right (by omega) (by omega)
    omega

theorem natToDec_all_digits (n : Nat) : (natToDec n).all isDigitCh = true :=
  natToDecAux_all_digits _ n (lt_ten_pow_succ n)

theorem natToDec_ne_nil (n : Nat) : natToDec n ≠ [] :=
  natToDecAux_ne_nil _ n (by omega)

theorem digitsVal_natToDec (n : Nat) : digitsVal (natToDec n) = n := by
  have := natToDecAux_foldl (n + 1) n 0 (lt_ten_pow_succ n)
  simpa [digitsVal, natToDec] using this

theorem dropWhile_id_of_all_false {α : Type} (p : α → Bool) :
    ∀ (cs : List α), (∀ c ∈ cs, p c = false) → cs.dropWhile p = cs := by
  intro cs h
  cases cs with
  | nil => rfl
  | cons c r =>
    rw [List.dropWhile_cons, h c (by simp)]
    simp

theorem trimChars_id_of_no_ws {cs : List Char} (h : ∀ c ∈ cs, isWSCh c = false) :
    trimChars cs = cs := by
  unfold trimChars
  rw [dropWhile_id_of_all_false _ cs h]
  rw [dropWhile_id_of_all_false _ cs.reverse (by intro c hc; exact h c (List.mem_reverse.mp hc))]
  exact List.reverse_reverse cs

theorem trimChars_of_digits {cs : List Char} (h : cs.all isDigitCh = true) :
    trimChars cs = cs :=
  trimChars_id_of_no_ws (fun c hc => isWSCh_of_digit (List.all_eq_true.mp h c hc))

theorem parseNatChars_of_digits {cs : List Char} (hne : cs ≠ [])
    (h : cs.all isDigitCh = true) : parseNatChars cs = some (digitsVal cs) := by
  unfold parseNatChars
  rw [if_pos ⟨hne, h⟩]

theorem parseU32Chars_of_digits {cs : List Char} (hne : cs ≠ [])
    (h : cs.all isDigitCh = true) (hb : digitsVal cs < 4294967296) :
    parseU32Chars cs = some (digitsVal cs) := by
  unfold parseU32Chars
  cases cs with
  | nil => exact absurd rfl hne
  | cons c r =>
    have hc : isDigitCh c = true := List.all_eq_true.mp h c (by simp)
    simp only [if_neg (ne_plus_of_digit hc)]
    rw [parseNatChars_of_digits hne h]
    simp only [if_pos hb]

theorem parseU32_natToDec {n : Nat} (hb : n < 4294967296) :
    parseU32Chars (natToDec n) = some n := by
  rw [parseU32Chars_of_digits (natToDec_ne_nil n) (natToDec_all_digits n)
    (by rw [digitsVal_natToDec]; exact hb), digitsVal_natToDec]

theorem splitChAux_nosep {sep : Char} :
    ∀ (tok : List Char), (∀ c ∈ tok, c ≠ sep) → ∀ xs acc,
      splitChAux sep (tok ++ xs) acc = splitChAux sep xs (tok.reverse ++ acc) := by
  intro tok
  induction tok with
  | nil => intro _ xs acc; simp
  | cons c t ih =>
    intro h xs acc
    rw [List.cons_append, splitChAux, if_neg (h c (by simp))]
    rw [ih (fun x hx => h x (by simp [hx])) xs (c :: acc)]
    simp

theorem splitCh_csvEncode :
    ∀ raws, raws ≠ [] → splitCh ',' (csvEncode raws) = raws.map natToDec := by
  intro raws
  induction raws with
  | nil => intro h; exact absurd rfl h
  | cons v rest ih =>
    intro _
    have hnc : ∀ c ∈ natToDec v, c ≠ ',' :=
      fun c hc => ne_comma_of_digit (List.all_eq_true.mp (natToDec_all_digits v) c hc)
    cases rest with
    | nil =>
      show splitChAux ',' (csvEncode [v]) [] = [natToDec v]
      rw [show csvEncode [v] = natToDec v from rfl, ← List.append_nil (natToDec v)]
      rw [splitChAux_nosep (natToDec v) hnc [] []]
      simp [splitChAux]
    | cons w rest2 =>
      show splitChAux ',' (csvEncode (v :: w :: rest2)) [] = _
      rw [show csvEncode (v :: w :: rest2) = natToDec v ++ ',' :: csvEncode (w :: rest2)
        from rfl]
      rw [splitChAux_nosep (natToDec v) hnc _ []]
      rw [splitChAux, if_pos rfl]
      have := ih (by simp)
      rw [show splitCh ',' (csvEncode (w :: rest2)) =
        splitChAux ',' (csvEncode (w :: rest2)) [] from rfl] at this
      rw [this]
      simp

theorem decodeTokens_map_natToDec :
    ∀ raws, (∀ v ∈ raws, v < 4294967296) →
      decodeTokens (raws.map natToDec) = .ok raws := by
  intro raws
  induction raws with
  | nil => intro _; rfl
  | cons v rest ih =>
    intro hb
    show decodeTokens (natToDec v :: rest.map natToDec) = _
    rw [decodeTokens]
    rw [trimChars_of_digits (natToDec_all_digits v), parseU32_natToDec (hb v (by simp))]
    rw [ih (fun x hx => hb x (by simp [hx]))]
    rfl

theorem decodeCSV_encode {raws : List Nat} (hne : raws ≠ [])
    (hb : ∀ v ∈ raws, v < 4294967296) :
    decodeCSV (String.mk (csvEncode raws)) = .ok raws := by
  unfold decodeCSV
  rw [show (String.mk (csvEncode raws)).data = csvEncode raws from rfl]
  rw [splitCh_csvEncode raws hne, decodeTokens_map_natToDec raws hb]

theorem charSextet_sextetChar : ∀ s, s < 64 → charSextet (sextetChar s) = some s := by
  decide

theorem sextetChar_ne_pad : ∀ s, s < 64 → sextetChar s ≠ '=' := by decide

theorem sextetChar_not_ws : ∀ s, s < 64 → isWSCh (sextetChar s) = false := by decide

theorem encodeSextets_lt :
    ∀ bs, (∀ b ∈ bs, b < 256) → ∀ s ∈ encodeSextets bs, s < 64 := by
  intro bs
  induction bs using encodeSextets.induct with
  | case1 b0 b1 b2 rest ih =>
    intro hb s hs
    rw [encodeSextets] at hs
    have h0 : b0 < 256 := hb b0 (by simp)
    have h1 : b1 < 256 := hb b1 (by simp)
    have h2 : b2 < 256 := hb b2 (by simp)
    simp only [List.mem_cons] at hs
    rcases hs with h | h | h | h | h
    · omega
    · omega
    · omega
    · omega
    · exact ih (fun x hx => hb x (by simp [hx])) s h
  | case2 b0 b1 =>
    intro hb s hs
    have h0 : b0 < 256 := hb b0 (by simp)
    have h1 : b1 < 256 := hb b1 (by simp)
    rw [encodeSextets] at hs
    simp only [List.mem_cons, List.not_mem_nil, or_false] at hs
    rcases hs with h | h | h
    · omega
    · omega
    · omega
  | case3 b0 =>
    intro hb s hs
    have h0 : b0 < 256 := hb b0 (by simp)
    rw [encodeSextets] at hs
    simp only [List.mem_cons, List.not_mem_nil, or_false] at hs
    rcases hs with h | h
    · omega
    · omega
  | case4 =>
    intro _ s hs
    rw [encodeSextets] at hs
    exact absurd hs (List.not_mem_nil s)

theorem decodeSextets_encodeSextets :
    ∀ bs, (∀ b ∈ bs, b < 256) → decodeSextets (encodeSextets bs) = some bs := by
  intro bs
  induction bs using encodeSextets.induct with
  | case1 b0 b1 b2 rest ih =>
    intro hb
    have h0 : b0 < 256 := hb b0 (by simp)
    have h1 : b1 < 256 := hb b1 (by simp)
    have h2 : b2 < 256 := hb b2 (by simp)
    rw [encodeSextets, decodeSextets, ih (fun x hx => hb x (by simp [hx]))]
    simp only [Option.map_some']
    congr 1
    have e0 : b0 / 4 * 4 + (b0 % 4 * 16 + b1 / 16) / 16 = b0 := by omega
    have e1 : (b0 % 4 * 16 + b1 / 16) % 16 * 16 + (b1 % 16 * 4 + b2 / 64) / 4 = b1 := by
      omega
    have e2 : (b1 % 16 * 4 + b2 / 64) % 4 * 64 + b2 % 64 = b2 := by omega
    rw [e0, e1, e2]
  | case2 b0 b1 =>
    intro hb
    have h0 : b0 < 256 := hb b0 (by simp)
    have h1 : b1 < 256 := hb b1 (by simp)
    rw [encodeSextets, decodeSextets]
    congr 1
    have e0 : b0 / 4 * 4 + (b0 % 4 * 16 + b1 / 16) / 16 = b0 := by omega
    have e1 : (b0 % 4 * 16 + b1 / 16) % 16 * 16 + b1 % 16 * 4 / 4 = b1 := by omega
    rw [e0, e1]
  | case3 b0 =>
    intro hb
    have h0 : b0 < 256 := hb b0 (by simp)
    rw [encodeSextets, decodeSextets]
    congr 1
    have e0 : b0 / 4 * 4 + b0 % 4 * 16 / 16 = b0 := by omega
    rw [e0]
  | case4 => intro _; rfl

theorem sextetsOf_map_sextetChar :
    ∀ ss, (∀ s ∈ ss, s < 64) → sextetsOf (ss.map sextetChar) = some ss := by
  intro ss
  induction ss with
  | nil => intro _; rfl
  | cons s rest ih =>
    intro hb
    show sextetsOf (sextetChar s :: rest.map sextetChar) = _
    rw [sextetsOf, charSextet_sextetChar s (hb s (by simp)),
      ih (fun x hx => hb x (by simp [hx]))]

theorem dropWhile_replicate_append {α : Type} (p : α → Bool) (a : α) (hp : p a = true) :
    ∀ n (l : List α), (List.replicate n a ++ l).dropWhile p = l.dropWhile p := by
  intro n
  induction n with
  | zero => intro l; simp
  | succ n ih =>
    intro l
    rw [List.replicate_succ, List.cons_append, List.dropWhile_cons]
    simp [hp, ih l]

theorem dropWhile_id_of_all_false2 {α : Type} (p : α → Bool)
    {cs : List α} (h : ∀ c ∈ cs, p c = false) : cs.dropWhile p = cs :=
  dropWhile_id_of_all_false p cs h

theorem b64Decode_b64Encode {bytes : List Nat} (hb : ∀ b ∈ bytes, b < 256) :
    b64Decode (b64Encode bytes).data = some bytes := by
  have hlt := encodeSextets_lt bytes hb
  unfold b64Decode b64Encode
  rw [show (String.mk ((encodeSextets bytes).map sextetChar ++
    List.replicate (b64PadCount bytes.length) '=')).data =
    (encodeSextets bytes).map sextetChar ++
      List.replicate (b64PadCount bytes.length) '=' from rfl]
  rw [List.reverse_append, List.reverse_replicate]
  rw [dropWhile_replicate_append (fun c => (c = '=' : Bool)) '=' (by decide)]
  rw [dropWhile_id_of_all_false]
  · rw [List.reverse_reverse]
    show (sextetsOf ((encodeSextets bytes).map sextetChar)).bind decodeSextets = _
    rw [sextetsOf_map_sextetChar _ hlt]
    exact decodeSextets_encodeSextets bytes hb
  · intro c hc
    rw [List.mem_reverse] at hc
    obtain ⟨s, hs, rfl⟩ := List.mem_map.mp hc
    simp only [decide_eq_false_iff_not]
    exact sextetChar_ne_pad s (hlt s hs)

theorem bytesLE_lt : ∀ raws, ∀ b ∈ bytesLE raws, b < 256 := by
  intro raws
  induction raws with
  | nil => intro b hb; exact absurd hb (List.not_mem_nil b)
  | cons v rest ih =>
    intro b hb
    rw [bytesLE] at hb
    simp only [List.mem_cons] at hb
    rcases hb with h | h | h | h | h
    · omega
    · omega
    · omega
    · omega
    · exact ih b h

theorem bytesToU32s_bytesLE :
    ∀ raws, (∀ v ∈ raws, v < 4294967296) → bytesToU32s (bytesLE raws) = .ok raws := by
  intro raws
  induction raws with
  | nil => intro _; rfl
  | cons v rest ih =>
    intro hb
    have hv : v < 4294967296 := hb v (by simp)
    rw [bytesLE, bytesToU32s, ih (fun x hx => hb x (by simp [hx]))]
    have hv2 : v % 256 + v / 256 % 256 * 256 + v / 65536 % 256 * 65536 +
        v / 16777216 % 256 * 16777216 = v := by omega
    show Except.ok _ = _
    rw [hv2]

theorem decodeGids_map_natToDec :
    ∀ raws, (∀ v ∈ raws, v < 4294967296) →
      decodeGids (raws.map (fun v => String.mk (natToDec v))) = .ok raws := by
  intro raws
  induction raws with
  | nil => intro _; rfl
  | cons v rest ih =>
    intro hb
    show decodeGids (String.mk (natToDec v) :: rest.map _) = _
    rw [decodeGids]
    rw [show parseU32 (String.mk (natToDec v)) = parseU32Chars (natToDec v) from rfl]
    rw [parseU32_natToDec (hb v (by simp))]
    rw [ih (fun x hx => hb x (by simp [hx]))]
    rfl

theorem trimChars_b64Encode (bytes : List Nat) (hb : ∀ b ∈ bytes, b < 256) :
    trimChars (b64Encode bytes).data = (b64Encode bytes).data := by
  apply trimChars_id_of_no_ws
  intro c hc
  rw [show (b64Encode bytes).data = (encodeSextets bytes).map sextetChar ++
    List.replicate (b64PadCount bytes.length) '=' from rfl] at hc
  rw [List.mem_append] at hc
  rcases hc with h | h
  · obtain ⟨s, hs, rfl⟩ := List.mem_map.mp h
    exact sextetChar_not_ws s (encodeSextets_lt bytes hb s hs)
  · rw [List.eq_of_mem_replicate h]
    decide

/-- C1: for every logical grid of cells, decoding a tile-layer body that
encodes that grid under any of the five supported encodings (plain child
elements, CSV, base64-raw, base64-zlib, base64-gzip) yields the identical
row-major grid of cells, with the same Gid and the same three flip flags at
every position. The compressed bodies are quantified over every compressed
byte stream the respective collaborator inflates back to the grid's byte
serialization. -/
theorem c1_five_encodings_agree
    (w h : Nat) (raws : List Nat) (zlib gzip : List Nat → Option (List Nat))
    (zBytes gBytes : List Nat)
    (hne : raws ≠ []) (hlen : raws.length = w * h)
    (hb : ∀ v ∈ raws, v < 4294967296)
    (hzB : ∀ b ∈ zBytes, b < 256) (hgB : ∀ b ∈ gBytes, b < 256)
    (hz : zlib zBytes = some (bytesLE raws))
    (hg : gzip gBytes = some (bytesLE raws)) :
    decodeLayerCells zlib gzip .plain w h
        (.elems (raws.map (fun v => String.mk (natToDec v)))) =
      .ok (gridRows h w (raws.map cellOfRaw)) ∧
    decodeLayerCells zlib gzip .csv w h (.text (String.mk (csvEncode raws))) =
      .ok (gridRows h w (raws.map cellOfRaw)) ∧
    decodeLayerCells zlib gzip .base64raw w h (.text (b64Encode (bytesLE raws))) =
      .ok (gridRows h w (raws.map cellOfRaw)) ∧
    decodeLayerCells zlib gzip .base64zlib w h (.text (b64Encode zBytes)) =
      .ok (gridRows h w (raws.map cellOfRaw)) ∧
    decodeLayerCells zlib gzip .base64gzip w h (.text (b64Encode gBytes)) =
      .ok (gridRows h w (raws.map cellOfRaw)) := by
  refine ⟨?_, ?_, ?_, ?_, ?_⟩
  · simp only [decodeLayerCells, decodeLayerRaws]
    rw [decodeGids_map_natToDec raws hb]
    simp [List.length_map, hlen]
  · simp only [decodeLayerCells, decodeLayerRaws]
    rw [decodeCSV_encode hne hb]
    simp [List.length_map, hlen]
  · simp only [decodeLayerCells, decodeLayerRaws]
    rw [trimChars_b64Encode _ (bytesLE_lt raws), b64Decode_b64Encode (bytesLE_lt raws)]
    simp [bytesToU32s_bytesLE raws hb, hlen]
  · simp only [decodeLayerCells, decodeLayerRaws]
    rw [trimChars_b64Encode _ hzB, b64Decode_b64Encode hzB]
    simp [hz, bytesToU32s_bytesLE raws hb, hlen]
  · simp only [decodeLayerCells, decodeLayerRaws]
    rw [trimChars_b64Encode _ hgB, b64Decode_b64Encode hgB]
    simp [hg, bytesToU32s_bytesLE raws hb, hlen]

/-- Witness for C1 at the concrete 2 x 2 grid [35, 17, 0, 2684354561] with the
identity transform standing for both decompressors (its inflate trivially
returns the byte serialization). -/
theorem c1_five_encodings_agree_witness :
    decodeLayerCells some some .csv 2 2
        (.text (String.mk (csvEncode [35, 17, 0, 2684354561]))) =
      .ok (gridRows 2 2 ([35, 17, 0, 2684354561].map cellOfRaw)) ∧
    decodeLayerCells some some .base64gzip 2 2
        (.text (b64Encode (bytesLE [35, 17, 0, 2684354561]))) =
      .ok (gridRows 2 2 ([35, 17, 0, 2684354561].map cellOfRaw)) := by
  have := c1_five_encodings_agree 2 2 [35, 17, 0, 2684354561] some some
    (bytesLE [35, 17, 0, 2684354561]) (bytesLE [35, 17, 0, 2684354561])
    (by decide) (by decide) (by decide)
    (bytesLE_lt _) (bytesLE_lt _) rfl rfl
  exact ⟨this.2.1, this.2.2.2.2⟩

/-- C2: for every raw stored 32-bit cell value, the decoded cell's three
boolean flags are exactly the top three bits (flip-diagonal, flip-vertical,
flip-horizontal, in that bit order from the most significant bit), its Gid is
the remaining 29 bits, and re-packing the cell (gid with the flags shifted
back into the top three bits) reproduces the original value exactly. -/
theorem c2_flag_bits_roundtrip (v : Nat) (hv : v < 4294967296) :
    (cellOfRaw v).flip_d = v.testBit 31 ∧
    (cellOfRaw v).flip_v = v.testBit 30 ∧
    (cellOfRaw v).flip_h = v.testBit 29 ∧
    (cellOfRaw v).gid.val = v % 536870912 ∧
    packCell (cellOfRaw v) = v := by
  refine ⟨?_, ?_, ?_, rfl, ?_⟩
  · rw [Nat.testBit_to_div_mod]; rfl
  · rw [Nat.testBit_to_div_mod]; rfl
  · rw [Nat.testBit_to_div_mod]; rfl
  · unfold packCell cellOfRaw
    simp only
    by_cases h31 : v / 2147483648 % 2 = 1 <;>
      by_cases h30 : v / 1073741824 % 2 = 1 <;>
        by_cases h29 : v / 536870912 % 2 = 1 <;>
          simp only [h31, h30, h29, decide_True, decide_False, decide_eq_true_eq,
            cond_true, cond_false] <;>
            omega

/-- Witness for C2 at the raw value with all three flag bits set above Gid 5. -/
theorem c2_flag_bits_roundtrip_witness :
    (cellOfRaw 3758096389).flip_d = (3758096389 : Nat).testBit 31 ∧
    (cellOfRaw 3758096389).flip_v = (3758096389 : Nat).testBit 30 ∧
    (cellOfRaw 3758096389).flip_h = (3758096389 : Nat).testBit 29 ∧
    (cellOfRaw 3758096389).gid.val = 3758096389 % 536870912 ∧
    packCell (cellOfRaw 3758096389) = 3758096389 :=
  c2_flag_bits_roundtrip 3758096389 (by decide)

/-- A concrete tileset whose Gid range reaches past the top of the u32 space:
first_gid is the largest 32-bit value and tilecount is 2. -/
def tsOverflow : Tileset :=
  { first_gid := ⟨4294967295⟩, name := ("t"), tile_width := 1, tile_height := 1,
    spacing := 0, margin := 0, tilecount := 2, images := [], tiles := [],
    properties := [], source := none }

/-- Counterexample to C3 as stated: for the tileset with first_gid 4294967295
and tilecount 2, the Gid 4294967295 satisfies first_gid ≤ g < first_gid +
tilecount under exact arithmetic, yet contains_tile returns false, because
the u32 sum wraps to 1. -/
theorem c3_contains_tile_exact_range_counterexample :
    tsOverflow.first_gid.val ≤ 4294967295 ∧
    4294967295 < tsOverflow.first_gid.val + tsOverflow.tilecount ∧
    tsOverflow.contains_tile ⟨4294967295⟩ = false := by
  refine ⟨by decide, by decide, ?_⟩
  decide

/-- C3 amended: contains_tile decides membership in the range whose upper
bound is the wrapping u32 sum of first_gid and tilecount; whenever that sum
does not overflow (first_gid + tilecount below 2^32), this coincides with
the exact bound, and the claimed equivalence holds. -/
theorem c3_contains_tile_range (t : Tileset) (g : Gid)
    (hnof : t.first_gid.val + t.tilecount < 4294967296) :
    t.contains_tile g = true ↔
      t.first_gid.val ≤ g.val ∧ g.val < t.first_gid.val + t.tilecount := by
  unfold Tileset.contains_tile
  rw [Bool.and_eq_true, decide_eq_true_eq, decide_eq_true_eq,
    Nat.mod_eq_of_lt hnof]

/-- Witness for the amended C3 at a small in-range tileset and Gid. -/
theorem c3_contains_tile_range_witness :
    (Tileset.contains_tile
      { first_gid := ⟨5⟩, name := ("t"), tile_width := 1, tile_height := 1,
        spacing := 0, margin := 0, tilecount := 3, images := [], tiles := [],
        properties := [], source := none } ⟨6⟩ = true) ↔ (5 ≤ 6 ∧ 6 < 5 + 3) :=
  c3_contains_tile_range _ ⟨6⟩ (by decide)

theorem binary_search_none {k : Nat} :
    ∀ l, (∀ x ∈ l, x.id ≠ k) → binary_search_by_key k l = none := by
  intro l
  induction l with
  | nil => intro _; rfl
  | cons t rest ih =>
    intro h
    rw [binary_search_by_key, if_neg (h t (by simp)), ih (fun x hx => h x (by simp [hx]))]
    rfl

theorem binary_search_some {k : Nat} :
    ∀ l, (∃ x ∈ l, x.id = k) →
      ∃ i x, binary_search_by_key k l = some i ∧ l.get? i = some x ∧ x.id = k := by
  intro l
  induction l with
  | nil => rintro ⟨x, hx, _⟩; exact absurd hx (List.not_mem_nil x)
  | cons t rest ih =>
    rintro ⟨x, hx, hk⟩
    by_cases ht : t.id = k
    · exact ⟨0, t, by rw [binary_search_by_key, if_pos ht], rfl, ht⟩
    · have hxr : x ∈ rest := by
        rcases List.mem_cons.mp hx with rfl | h
        · exact absurd hk ht
        · exact h
      obtain ⟨i, y, h1, h2, h3⟩ := ih ⟨x, hxr, hk⟩
      refine ⟨i + 1, y, ?_, h2, h3⟩
      rw [binary_search_by_key, if_neg ht, h1]
      rfl

/-- C9: get_tile_by_gid is partial at the public interface. For a tileset
whose tiles list is sorted by local id: when a per-tile metadata record with
id equal to gid - first_gid exists it is returned; when no such record
exists (every tile without attached metadata, and any gid outside the range)
the not-found branch is todo! and the call panics instead of returning none;
and when gid is below first_gid the u32 subtraction underflows (a panic)
before the search runs. -/
theorem c9_get_tile_by_gid_outcomes (t : Tileset) (g : Gid)
    (_hsorted : t.tiles.Pairwise (fun a b => a.id ≤ b.id)) :
    (g.val < t.first_gid.val →
      t.get_tile_by_gid g = .error ("attempt to subtract with overflow")) ∧
    (t.first_gid.val ≤ g.val →
      (∃ tile ∈ t.tiles, tile.id = g.val - t.first_gid.val) →
      ∃ tile, t.get_tile_by_gid g = .ok (some tile) ∧ tile ∈ t.tiles ∧
        tile.id = g.val - t.first_gid.val) ∧
    (t.first_gid.val ≤ g.val →
      (∀ tile ∈ t.tiles, tile.id ≠ g.val - t.first_gid.val) →
      t.get_tile_by_gid g = .error ("not yet implemented")) := by
  refine ⟨?_, ?_, ?_⟩
  · intro hlt
    unfold Tileset.get_tile_by_gid
    rw [if_pos hlt]
  · intro hge hex
    obtain ⟨i, x, h1, h2, h3⟩ := binary_search_some t.tiles hex
    refine ⟨x, ?_, List.get?_mem h2, h3⟩
    unfold Tileset.get_tile_by_gid
    rw [if_neg (by omega)]
    simp only [h1, h2]
  · intro hge hnone
    unfold Tileset.get_tile_by_gid
    rw [if_neg (by omega)]
    simp only [binary_search_none t.tiles hnone]

/-- A concrete tileset with first_gid 3 and one metadata record, for tile id 2. -/
def tsSmall : Tileset :=
  { first_gid := ⟨3⟩, name := ("t"), tile_width := 16, tile_height := 16,
    spacing := 0, margin := 0, tilecount := 4, images := [],
    tiles := [{ id := 2, images := [], properties := [], objectgroup := none,
                animation := none, tile_type := none, probability := 1 }],
    properties := [], source := none }

/-- Witness for C9 at tsSmall: Gid 5 finds the record with local id 2, Gid 3
hits the todo! panic, and Gid 2 underflows. -/
theorem c9_get_tile_by_gid_outcomes_witness :
    (∃ tile, tsSmall.get_tile_by_gid ⟨5⟩ = .ok (some tile) ∧ tile ∈ tsSmall.tiles ∧
      tile.id = 5 - 3) ∧
    tsSmall.get_tile_by_gid ⟨3⟩ = .error ("not yet implemented") ∧
    tsSmall.get_tile_by_gid ⟨2⟩ = .error ("attempt to subtract with overflow") := by
  have hsorted : tsSmall.tiles.Pairwise (fun a b => a.id ≤ b.id) := by
    unfold tsSmall
    simp
  refine ⟨?_, ?_, ?_⟩
  · exact (c9_get_tile_by_gid_outcomes tsSmall ⟨5⟩ hsorted).2.1 (by decide)
      ⟨{ id := 2, images := [], properties := [], objectgroup := none,
         animation := none, tile_type := none, probability := 1 }, by simp [tsSmall], rfl⟩
  · exact (c9_get_tile_by_gid_outcomes tsSmall ⟨3⟩ hsorted).2.2 (by decide)
      (by intro tile htile; simp [tsSmall] at htile; subst htile; decide)
  · exact (c9_get_tile_by_gid_outcomes tsSmall ⟨2⟩ hsorted).1 (by decide)

/-- The location-required error message of parse_xml_reference, pinned by the
test test_external_tileset_from_embedded_map; it is the code's rendering of
the spec's UnresolvableReference kind. -/
def locationRequiredErr : TiledError :=
  .Other ("Maps with external tilesets must know their file location.  See parse_with_path(Path).")

/-- C5: parsing an external-tileset reference (a bare firstgid plus source
element) from a map with no known path fails with the location-required error
(the spec's UnresolvableReference kind, pinned as TiledError::Other with this
exact message by the test suite), never with an IoError, and the failure
happens before any attempt to open the referenced file: the file system state
is returned untouched (no open recorded) whatever files it contains. -/
theorem c5_no_path_unresolvable (fuel : Nat) (attrs : List OwnedAttribute)
    (st : FsState) (fg : Gid) (src : String)
    (h1 : getAttr attrs ("firstgid") (fun v => (parseU32 v).map Gid.mk) = some fg)
    (h2 : getAttr attrs ("source") some = some src) :
    Tileset.parse_xml_reference fuel attrs none st = (.error (.tiled locationRequiredErr), st) ∧
    (∀ e, (Tileset.parse_xml_reference fuel attrs none st).1 ≠
      .error (.tiled (.IoError e))) := by
  have hmain : Tileset.parse_xml_reference fuel attrs none st =
      (.error (.tiled locationRequiredErr), st) := by
    unfold Tileset.parse_xml_reference requireAttr
    rw [h1, h2]
    rfl
  refine ⟨hmain, ?_⟩
  intro e
  rw [hmain]
  simp [locationRequiredErr]

/-- Witness for C5 at a concrete reference attribute list and a file system
that would happily serve any path. -/
theorem c5_no_path_unresolvable_witness :
    Tileset.parse_xml_reference 10
        [⟨("firstgid"), ("1")⟩, ⟨("source"), ("ts.tsx")⟩] none
        ⟨fun _ => some [], []⟩ =
      (.error (.tiled locationRequiredErr), ⟨fun _ => some [], []⟩) :=
  (c5_no_path_unresolvable 10 _ _ ⟨1⟩ ("ts.tsx") (by decide) (by decide)).1

/-- The reference attribute list of a map tileset element pointing at an
external file. -/
def refAttrs : List OwnedAttribute :=
  [⟨("firstgid"), ("1")⟩, ⟨("source"), ("ts.tsx")⟩]

/-- A file system with no files at all: every open fails. -/
def stEmpty : FsState := ⟨fun _ => none, []⟩

/-- True exactly when a parse result failed with the IoError kind. -/
def failedWithIoError : Except ParseErr Tileset → Bool
  | .error (.tiled (.IoError _)) => true
  | _ => false

/-- Counterexample to C6 as stated: with the referenced file unopenable, the
resolution fails with the generic Other error naming the path (the
underlying cause is discarded by map_err), not with an IoError wrapping the
cause. -/
theorem c6_io_failure_counterexample :
    (Tileset.parse_xml_reference 10 refAttrs (some ("assets/map.tmx")) stEmpty).1 =
      .error (.tiled (.Other
        (("External tileset file not found: \"assets/ts.tsx\"")))) ∧
    failedWithIoError
      (Tileset.parse_xml_reference 10 refAttrs (some ("assets/map.tmx")) stEmpty).1 = false :=
  ⟨rfl, rfl⟩

/-- C6 amended: for every external-tileset reference whose resolved file
cannot be opened, resolution fails with the generic Other error carrying the
message naming the resolved path; the underlying I/O cause is discarded (the
map_err closure ignores it), and no IoError is produced. -/
theorem c6_open_failure_generic_other (fuel : Nat) (attrs : List OwnedAttribute)
    (mp : String) (st : FsState) (fg : Gid) (src : String)
    (h1 : getAttr attrs ("firstgid") (fun v => (parseU32 v).map Gid.mk) = some fg)
    (h2 : getAttr attrs ("source") some = some src)
    (hfile : st.files (with_file_name mp src) = none) :
    Tileset.parse_xml_reference fuel attrs (some mp) st =
      (.error (.tiled (.Other
        (("External tileset file not found: \"") ++ with_file_name mp src ++ ("\"")))),
       { st with opens := st.opens ++ [with_file_name mp src] }) := by
  unfold Tileset.parse_xml_reference requireAttr
  rw [h1, h2]
  simp only [fsOpen, hfile]

/-- Witness for the amended C6 at the concrete empty file system. -/
theorem c6_open_failure_generic_other_witness :
    Tileset.parse_xml_reference 10 refAttrs (some ("assets/map.tmx")) stEmpty =
      (.error (.tiled (.Other
        (("External tileset file not found: \"") ++
          with_file_name ("assets/map.tmx") ("ts.tsx") ++ ("\"")))),
       { stEmpty with opens := stEmpty.opens ++ [with_file_name ("assets/map.tmx") ("ts.tsx")] }) :=
  c6_open_failure_generic_other 10 refAttrs ("assets/map.tmx") stEmpty ⟨1⟩ ("ts.tsx")
    (by decide) (by decide) rfl

/-- The event stream of a minimal well-formed external tileset file. -/
def tsFileEvs : List XmlEvent :=
  [.startElement ("tileset")
      [⟨("tilecount"), ("1")⟩, ⟨("name"), ("t")⟩,
       ⟨("tilewidth"), ("16")⟩, ⟨("tileheight"), ("16")⟩],
   .endElement ("tileset")]

/-- A file system holding exactly the referenced tileset file. -/
def stOneFile : FsState :=
  ⟨fun p => if p = ("assets/ts.tsx") then some tsFileEvs else none, []⟩

/-- The tileset parsed from tsFileEvs with first gid 1. -/
def tsParsed : Tileset :=
  { first_gid := ⟨1⟩, name := ("t"), tile_width := 16, tile_height := 16,
    spacing := 0, margin := 0, tilecount := 1, images := [], tiles := [],
    properties := [], source := some ("assets/ts.tsx") }

/-- Counterexample to C4 as stated: resolving the same external tileset path
twice performs the underlying file open and parse twice, not once — the code
consults no cache. Both resolutions succeed and the open log then holds the
path two times. -/
theorem c4_parse_once_counterexample :
    (Tileset.parse_xml_reference 10 refAttrs (some ("assets/map.tmx")) stOneFile).1 =
      .ok tsParsed ∧
    ((Tileset.parse_xml_reference 10 refAttrs (some ("assets/map.tmx"))
        (Tileset.parse_xml_reference 10 refAttrs (some ("assets/map.tmx")) stOneFile).2).1 =
      .ok tsParsed) ∧
    ((Tileset.parse_xml_reference 10 refAttrs (some ("assets/map.tmx"))
        (Tileset.parse_xml_reference 10 refAttrs (some ("assets/map.tmx")) stOneFile).2).2.opens =
      [("assets/ts.tsx"), ("assets/ts.tsx")]) :=
  ⟨rfl, rfl, rfl⟩

/-- C4 amended: the resolver consults no cache. Every resolution of an
external reference with a well-formed attribute list and a known map path
performs a fresh File::open of the resolved path (the open log grows by that
path each time, however often it was opened before), and its result depends
only on the file contents, never on any record of earlier resolutions. -/
theorem c4_no_cache_every_resolution_opens (fuel : Nat)
    (attrs : List OwnedAttribute) (mp : String) (st : FsState) (fg : Gid) (src : String)
    (h1 : getAttr attrs ("firstgid") (fun v => (parseU32 v).map Gid.mk) = some fg)
    (h2 : getAttr attrs ("source") some = some src) :
    (Tileset.parse_xml_reference fuel attrs (some mp) st).2.opens =
      st.opens ++ [with_file_name mp src] ∧
    (∀ opens2 : List String,
      (Tileset.parse_xml_reference fuel attrs (some mp) ⟨st.files, opens2⟩).1 =
        (Tileset.parse_xml_reference fuel attrs (some mp) st).1) := by
  constructor
  · unfold Tileset.parse_xml_reference requireAttr
    rw [h1, h2]
    simp only [fsOpen]
    cases st.files (with_file_name mp src) <;> rfl
  · intro opens2
    unfold Tileset.parse_xml_reference requireAttr
    rw [h1, h2]
    simp only [fsOpen]
    cases st.files (with_file_name mp src) <;> rfl

/-- Witness for the amended C4 at the concrete one-file file system. -/
theorem c4_no_cache_every_resolution_opens_witness :
    (Tileset.parse_xml_reference 10 refAttrs (some ("assets/map.tmx")) stOneFile).2.opens =
      stOneFile.opens ++ [with_file_name ("assets/map.tmx") ("ts.tsx")] ∧
    (∀ opens2 : List String,
      (Tileset.parse_xml_reference 10 refAttrs (some ("assets/map.tmx"))
          ⟨stOneFile.files, opens2⟩).1 =
        (Tileset.parse_xml_reference 10 refAttrs (some ("assets/map.tmx")) stOneFile).1) :=
  c4_no_cache_every_resolution_opens 10 refAttrs ("assets/map.tmx") stOneFile ⟨1⟩
    ("ts.tsx") (by decide) (by decide)

/-- C7: when a declared required attribute of an element parse is absent (or
rejected by its coercion), the parse fails with a MalformedAttributes error
naming the specific offending attribute ahead of the caller-supplied message.
For the standalone tileset element: with tilecount and name resolvable, a
missing or uncoercible tilewidth is named, and with tilewidth also
resolvable, a missing tileheight is named instead — the error identifies the
offender, not merely the element-wide message. -/
theorem c7_malformed_attribute_named (fuel : Nat) (fg : Gid)
    (attrs : List OwnedAttribute) (src : Option String) (evs : List XmlEvent)
    (tc : Nat) (nm : String)
    (h1 : getAttr attrs ("tilecount") parseU32 = some tc)
    (h2 : getAttr attrs ("name") some = some nm) :
    (getAttr attrs ("tilewidth") parseU32 = none →
      Tileset.parse_external_tileset fuel fg attrs src evs =
        .error (.tiled (.MalformedAttributes (("tilewidth: ") ++
          ("tileset must have a firstgid, name tile width and height with correct types"))))) ∧
    (∀ w, getAttr attrs ("tilewidth") parseU32 = some w →
      getAttr attrs ("tileheight") parseU32 = none →
      Tileset.parse_external_tileset fuel fg attrs src evs =
        .error (.tiled (.MalformedAttributes (("tileheight: ") ++
          ("tileset must have a firstgid, name tile width and height with correct types"))))) := by
  constructor
  · intro h3
    unfold Tileset.parse_external_tileset requireAttr
    rw [h1, h2, h3]
    rfl
  · intro w h3 h4
    unfold Tileset.parse_external_tileset requireAttr
    rw [h1, h2, h3, h4]
    rfl

/-- Witness for C7 at a concrete tileset attribute list missing tilewidth. -/
theorem c7_malformed_attribute_named_witness :
    Tileset.parse_external_tileset 10 ⟨1⟩
        [⟨("tilecount"), ("1")⟩, ⟨("name"), ("t")⟩, ⟨("tileheight"), ("16")⟩] none [] =
      .error (.tiled (.MalformedAttributes (("tilewidth: ") ++
        ("tileset must have a firstgid, name tile width and height with correct types")))) :=
  (c7_malformed_attribute_named 10 ⟨1⟩ _ none [] 1 ("t") (by decide) (by decide)).1
    (by decide)

/-- An event the dispatcher passes over without dispatching or returning:
end of document terminates the loop exceptionally, and the rest are skipped
relative to the given close tag. -/
def ignorableFor (close : String) (ev : XmlEvent) : Prop :=
  ev = .endDocument ∨ ev = .otherEvent ∨ (∃ cs, ev = .characters cs) ∨
    (∃ n, ev = .endElement n ∧ n ≠ close)

/-- An event new_external passes over: anything that is not the tileset open
element and not a reader failure. -/
def notTilesetStart (ev : XmlEvent) : Prop :=
  (∀ n a, ev = .startElement n a → n ≠ ("tileset")) ∧ (∀ e, ev ≠ .readError e)

/-- C8: a parse whose event stream reaches end of document before the
matching close element fails with a PrematureEnd error. First conjunct: the
structural dispatcher, on any stream of events that never produces the
matching close (with fuel covering the stream), fails with the premature-end
error. Second conjunct: the standalone tileset document parse, on any stream
with no tileset open element at all, fails with its premature-end error. -/
theorem c8_premature_end :
    (∀ (σ : Type) (fuel : Nat) (close : String)
      (handlers : List (String × Handler σ)) (s : σ) (evs : List XmlEvent),
      evs.length < fuel → (∀ ev ∈ evs, ignorableFor close ev) →
      parse_tag fuel close handlers s evs =
        .error (.tiled (.PrematureEnd ("Document ended before we expected.")))) ∧
    (∀ (fuel : Nat) (evs : List XmlEvent) (fg : Gid) (src : Option String),
      (∀ ev ∈ evs, notTilesetStart ev) →
      Tileset.new_external fuel evs fg src =
        .error (.tiled (.PrematureEnd ("Tileset Document ended before map was parsed")))) := by
  constructor
  · intro σ fuel close handlers s evs
    induction evs generalizing fuel s with
    | nil =>
      intro hf _
      match fuel, hf with
      | f + 1, _ => rfl
    | cons ev rest ih =>
      intro hf hign
      match fuel, hf with
      | f + 1, hf2 =>
        have hrest : rest.length < f := by
          simp only [List.length_cons] at hf2
          omega
        rcases hign ev (by simp) with h | h | ⟨cs, h⟩ | ⟨n, h, hn⟩ <;> subst h
        · rfl
        · exact ih f s hrest (fun x hx => hign x (by simp [hx]))
        · exact ih f s hrest (fun x hx => hign x (by simp [hx]))
        · show (if n = close then _ else parse_tag f close handlers s rest) = _
          rw [if_neg hn]
          exact ih f s hrest (fun x hx => hign x (by simp [hx]))
  · intro fuel evs fg src
    induction evs with
    | nil => intro _; rfl
    | cons ev rest ih =>
      intro h
      obtain ⟨hstart, hread⟩ := h ev (by simp)
      have ihr := ih (fun x hx => h x (by simp [hx]))
      cases ev with
      | startElement n a =>
        show (if n = ("tileset") then _ else Tileset.new_external fuel rest fg src) = _
        rw [if_neg (hstart n a rfl)]
        exact ihr
      | endElement n => exact ihr
      | characters cs => exact ihr
      | endDocument => rfl
      | otherEvent => exact ihr
      | readError e => exact absurd rfl (hread e)

/-- Witness for C8: the dispatcher on a stream holding only a stray close tag
and end of document, and the tileset document parse on a stream holding only
character data and end of document. -/
theorem c8_premature_end_witness :
    parse_tag 3 ("tileset") ([] : List (String × Handler Unit)) ()
        [.endElement ("foo"), .endDocument] =
      .error (.tiled (.PrematureEnd ("Document ended before we expected."))) ∧
    Tileset.new_external 3 [.characters ("x"), .endDocument] ⟨1⟩ none =
      .error (.tiled (.PrematureEnd ("Tileset Document ended before map was parsed"))) := by
  constructor
  · exact c8_premature_end.1 Unit 3 ("tileset") [] ()
      [.endElement ("foo"), .endDocument] (by decide)
      (by
        intro ev hev
        simp only [List.mem_cons, List.not_mem_nil, or_false] at hev
        rcases hev with rfl | rfl
        · exact Or.inr (Or.inr (Or.inr ⟨("foo"), rfl, by decide⟩))
        · exact Or.inl rfl)
  · exact c8_premature_end.2 3 [.characters ("x"), .endDocument] ⟨1⟩ none
      (by
        intro ev hev
        simp only [List.mem_cons, List.not_mem_nil, or_false] at hev
        rcases hev with rfl | rfl
        · exact And.intro (fun n a hc => nomatch hc) (fun e hc => nomatch hc)
        · exact And.intro (fun n a hc => nomatch hc) (fun e hc => nomatch hc))

/-- C10: parse_xml always attempts the embedded-tileset parse first, and on
any failure of that attempt it falls back to parsing the same attribute list
as an external reference, so that when both attempts fail the surfaced error
is the reference-parse error and the embedded-parse error is discarded: the
result after an embedded failure is the reference parse's result, whatever
error the embedded attempt produced. -/
theorem c10_embedded_error_discarded (fuel : Nat) (attrs : List OwnedAttribute)
    (mp : Option String) (evs : List XmlEvent) (st : FsState) :
    (∀ t rest, Tileset.parse_xml_embedded fuel attrs mp evs = .ok (t, rest) →
      Tileset.parse_xml fuel attrs mp evs st = (.ok t, st)) ∧
    (∀ e1, Tileset.parse_xml_embedded fuel attrs mp evs = .error e1 →
      Tileset.parse_xml fuel attrs mp evs st =
        Tileset.parse_xml_reference fuel attrs mp st) := by
  constructor
  · intro t rest h
    unfold Tileset.parse_xml
    rw [h]
  · intro e1 h
    unfold Tileset.parse_xml
    rw [h]

/-- Witness for C10 at the empty attribute list: the embedded attempt fails
naming tilecount, the reference attempt fails naming firstgid, and the error
surfaced by parse_xml is the latter. -/
theorem c10_embedded_error_discarded_witness :
    Tileset.parse_xml_embedded 10 [] none [] =
      .error (.tiled (.MalformedAttributes (("tilecount: ") ++
        ("tileset must have a firstgid, name tile width and height with correct types")))) ∧
    Tileset.parse_xml 10 [] none [] stEmpty =
      (.error (.tiled (.MalformedAttributes (("firstgid: ") ++
        ("tileset must have a firstgid, name tile width and height with correct types")))),
       stEmpty) := by
  refine ⟨rfl, ?_⟩
  have h := (c10_embedded_error_discarded 10 [] none [] stEmpty).2
    (.tiled (.MalformedAttributes (("tilecount: ") ++
      ("tileset must have a firstgid, name tile width and height with correct types"))))
    rfl
  rw [h]
  rfl
